import Mathlib

namespace LC3

/-! Shallow embedding of the LC-3 virtual machine from src/main.rs,
src/operations.rs and src/file_management.rs.  Sixteen-bit machine words
are represented as natural numbers; every arithmetic step that the Rust
code performs with wrapping `u16` semantics takes an explicit `% 65536`.
Memory and the register file are total functions from indices to words,
matching the arrays `memory : [u16; 65536]` and `registers : [u16; 10]`
of the source (register index 8 is the program counter, index 9 the
condition flag register, mirroring the `Registers` enum order
R0..R7, Pc, Flags).  Console input is modelled by the list of key bytes
still pending on stdin and console output by the list of bytes written
so far. -/

/-- Pointwise update of a register or memory bank; `bank[index] = value` in the source. -/
def rwrite (f : Nat → Nat) (i v : Nat) : Nat → Nat :=
  fun j => if j = i then v else f j

/-- MEM_MAX from src/main.rs: `1 << 16` memory words. -/
def MEM_MAX : Nat := 65536

/-- PC_START from src/main.rs. -/
def PC_START : Nat := 0x3000

/-- MemoryMappedRegisters::Kbsr, the keyboard status register address. -/
def Kbsr : Nat := 0xFE00

/-- MemoryMappedRegisters::Kbdr, the keyboard data register address. -/
def Kbdr : Nat := 0xFE02

/-- Index of Registers::Pc in the register file. -/
def Rpc : Nat := 8

/-- Index of Registers::Flags (called Rcond in src/operations.rs) in the register file. -/
def Rcond : Nat := 9

/-- Machine state of struct State in src/main.rs, extended with the two
console channels that the Rust process reads from and writes to: `keys`
is the sequence of bytes still pending on stdin, `out` the bytes written
to stdout so far. -/
structure State where
  memory : Nat → Nat
  registers : Nat → Nat
  running : Bool
  keys : List Nat
  out : List Nat

/-- Errors surfaced by the run loop; the arms mirror the `Errors` enum of
src/main.rs plus `pcOverflow` for the checked `u16` addition in
`increment_pc` (a Rust arithmetic-overflow panic, not an `Errors` arm). -/
inductive RunError where
  | illegalOpcode (code : Nat)
  | badOpCode (code : Nat)
  | badTrapCode (code : Nat)
  | trapIo
  | pcOverflow
deriving DecidableEq, Repr

/-- Errors surfaced by the image loader of src/file_management.rs;
`oobWrite` models the Rust panic raised by an out-of-bounds array store
inside `State::memory_write`, and `badFile` stands for the I/O failures
(including the index panic on a file shorter than two bytes). -/
inductive LoadError where
  | badImageSize
  | badFile
  | oobWrite (index : Nat)
deriving DecidableEq, Repr

/-- check_key from src/main.rs: a zero-timeout read of one byte from
stdin, modelled on the pending key list.  The Rust function returns the
byte zero-extended to `u16`, hence the `% 256` coercion of the modelled
key. -/
def check_key (s : State) : Option Nat × State :=
  match s.keys with
  | [] => (none, s)
  | k :: rest => (some (k % 256), { s with keys := rest })

/-- State::memory_write from src/main.rs: a plain store, no side effects. -/
def memory_write (address value : Nat) (s : State) : State :=
  { s with memory := rwrite s.memory address value }

/-- State::memory_read from src/main.rs: reading the keyboard status
register first polls the console, setting Kbsr to `1 << 15` and Kbdr to
the key on success and Kbsr to 0 otherwise; then the word at the address
is returned. -/
def memory_read (address : Nat) (s : State) : Nat × State :=
  if address = Kbsr then
    match check_key s with
    | (some rv, s1) =>
        let s2 := memory_write Kbsr 0x8000 s1
        let s3 := memory_write Kbdr rv s2
        (s3.memory address, s3)
    | (none, s1) =>
        let s2 := memory_write Kbsr 0 s1
        (s2.memory address, s2)
  else (s.memory address, s)

/-- State::register_read from src/main.rs. -/
def register_read (address : Nat) (s : State) : Nat :=
  s.registers address

/-- State::register_write from src/main.rs. -/
def register_write (address value : Nat) (s : State) : State :=
  { s with registers := rwrite s.registers address value }

/-- State::increment_pc from src/main.rs.  The source performs
`self.registers[Registers::Pc] += 1`, a checked (non-wrapping) `u16`
addition that is an arithmetic-overflow panic when the program counter
is 0xFFFF; the panic is modelled as `none`. -/
def increment_pc (s : State) : Option State :=
  if s.registers Rpc = 65535 then none
  else some (register_write Rpc (s.registers Rpc + 1) s)

/-- Modelled from the spec: `wadd(PC, 1)`, the wrapping program-counter
increment that section 4.F of the spec prescribes for the fetch step
(src/main.rs instead performs the checked addition of `increment_pc`). -/
def increment_pc_wrapping (s : State) : State :=
  register_write Rpc ((s.registers Rpc + 1) % 65536) s

/-- sign_extend from src/operations.rs.  The Rust shift
`0xFFFF << bit_count` is a `u16` shift, hence the `% 65536` truncation. -/
def sign_extend (value : Nat) (bit_count : Nat) : Nat :=
  if value >>> (bit_count - 1) = 1 then
    value ||| ((0xFFFF <<< bit_count) % 65536)
  else value

/-- update_flags from src/operations.rs: Zro = 2 when the register is
zero, Neg = 4 when its top bit is set, Pos = 1 otherwise. -/
def update_flags (register : Nat) (s : State) : State :=
  if s.registers register = 0 then
    { s with registers := rwrite s.registers Rcond 2 }
  else if s.registers register >>> 15 = 1 then
    { s with registers := rwrite s.registers Rcond 4 }
  else
    { s with registers := rwrite s.registers Rcond 1 }

/-- add from src/operations.rs: register and immediate encodings of ADD,
with wrapping 16-bit addition, followed by update_flags. -/
def add (instruction : Nat) (s : State) : State :=
  let destination_register := (instruction >>> 9) &&& 0x7
  let source_register_1 := (instruction >>> 6) &&& 0x7
  let mode := (instruction >>> 5) &&& 0x1
  if mode = 1 then
    let value_to_add := sign_extend (instruction &&& 0x1F) 5
    let regs1 := rwrite s.registers destination_register
      ((s.registers source_register_1 + value_to_add) % 65536)
    update_flags destination_register { s with registers := regs1 }
  else
    let source_register_2 := instruction &&& 0x7
    let regs1 := rwrite s.registers destination_register
      ((s.registers source_register_1 + s.registers source_register_2) % 65536)
    update_flags destination_register { s with registers := regs1 }

/-- and from src/operations.rs: register and immediate encodings of AND,
followed by update_flags. -/
def and (instruction : Nat) (s : State) : State :=
  let destination_register := (instruction >>> 9) &&& 0x7
  let source_register_1 := (instruction >>> 6) &&& 0x7
  let mode := (instruction >>> 5) &&& 0x1
  if mode = 1 then
    let value_to_and := sign_extend (instruction &&& 0x1F) 5
    let regs1 := rwrite s.registers destination_register
      (s.registers source_register_1 &&& value_to_and)
    update_flags destination_register { s with registers := regs1 }
  else
    let source_register_2 := instruction &&& 0x7
    let regs1 := rwrite s.registers destination_register
      (s.registers source_register_1 &&& s.registers source_register_2)
    update_flags destination_register { s with registers := regs1 }

/-- load_indirect from src/operations.rs.  Note that both dereference
levels use the raw memory array, not State::memory_read. -/
def load_indirect (instruction : Nat) (s : State) : State :=
  let destination_register := (instruction >>> 9) &&& 0x7
  let pc_offset := sign_extend (instruction &&& 0x1FF) 9
  let memory_index := (s.registers Rpc + pc_offset) % 65536
  let regs1 := rwrite s.registers destination_register
    (s.memory (s.memory memory_index))
  update_flags destination_register { s with registers := regs1 }

/-- conditional_branch from src/operations.rs: the n, z and p indicator
bits are tested against the corresponding bits of the flag register. -/
def conditional_branch (instruction : Nat) (s : State) : State :=
  let negative_indicator := (instruction >>> 11) &&& 1
  let zero_indicator := (instruction >>> 10) &&& 1
  let positive_indicator := (instruction >>> 9) &&& 1
  let current_flags := s.registers Rcond
  if (negative_indicator &&& (current_flags >>> 2)) = 1
      ∨ (zero_indicator &&& (current_flags >>> 1)) = 1
      ∨ (positive_indicator &&& current_flags) = 1 then
    let pc_offset := sign_extend (instruction &&& 0x1FF) 9
    let regs1 := rwrite s.registers Rpc ((s.registers Rpc + pc_offset) % 65536)
    { s with registers := regs1 }
  else s

/-- jump from src/operations.rs: PC is set to the base register value. -/
def jump (instruction : Nat) (s : State) : State :=
  let base_register := (instruction >>> 6) &&& 0x7
  { s with registers := rwrite s.registers Rpc (s.registers base_register) }

/-- jump_to_subrutine from src/operations.rs: R7 receives the old PC
first, then PC is either offset (mode 1) or loaded from the base
register (mode 0). -/
def jump_to_subrutine (instruction : Nat) (s : State) : State :=
  let s0 := { s with registers := rwrite s.registers 7 (s.registers Rpc) }
  let mode := (instruction >>> 11) &&& 1
  if mode = 1 then
    let offset := sign_extend (instruction &&& 0x7FF) 11
    let regs1 := rwrite s0.registers Rpc ((s0.registers Rpc + offset) % 65536)
    { s0 with registers := regs1 }
  else
    let base_register := (instruction >>> 6) &&& 0x7
    { s0 with registers := rwrite s0.registers Rpc (s0.registers base_register) }

/-- load from src/operations.rs.  The memory access is a raw array read,
not State::memory_read. -/
def load (instruction : Nat) (s : State) : State :=
  let sign_extended_offset := sign_extend (instruction &&& 0x1FF) 9
  let destination_register := (instruction >>> 9) &&& 0x7
  let memory_index := (s.registers Rpc + sign_extended_offset) % 65536
  let regs1 := rwrite s.registers destination_register (s.memory memory_index)
  update_flags destination_register { s with registers := regs1 }

/-- load_register from src/operations.rs.  The memory access is a raw
array read, not State::memory_read. -/
def load_register (instruction : Nat) (s : State) : State :=
  let sign_extended_offset := sign_extend (instruction &&& 0x3F) 6
  let base_register := (instruction >>> 6) &&& 0x7
  let destination_register := (instruction >>> 9) &&& 0x7
  let memory_index := (s.registers base_register + sign_extended_offset) % 65536
  let regs1 := rwrite s.registers destination_register (s.memory memory_index)
  update_flags destination_register { s with registers := regs1 }

/-- load_effective_address from src/operations.rs. -/
def load_effective_address (instruction : Nat) (s : State) : State :=
  let sign_extended_offset := sign_extend (instruction &&& 0x1FF) 9
  let destination_register := (instruction >>> 9) &&& 0x7
  let address := (s.registers Rpc + sign_extended_offset) % 65536
  let s1 := { s with registers := rwrite s.registers destination_register address }
  update_flags destination_register s1

/-- not from src/operations.rs: the bitwise `u16` complement, which for a
word below 65536 equals subtraction from 65535. -/
def not (instruction : Nat) (s : State) : State :=
  let source_registry := (instruction >>> 6) &&& 0x7
  let destination_registry := (instruction >>> 9) &&& 0x7
  let regs1 := rwrite s.registers destination_registry
    (65535 - s.registers source_registry % 65536)
  update_flags destination_registry { s with registers := regs1 }

/-- store from src/operations.rs. -/
def store (instruction : Nat) (s : State) : State :=
  let sign_extended_offset := sign_extend (instruction &&& 0x1FF) 9
  let source_register := (instruction >>> 9) &&& 0x7
  let memory_address := (s.registers Rpc + sign_extended_offset) % 65536
  { s with memory := rwrite s.memory memory_address (s.registers source_register) }

/-- Modelled from the spec: store_register (STR), whose body is absent
from src/operations.rs (only its caller in run_step and its tests
appear).  Spec 4.D: `mem[wadd(R[BaseR], sext(off6,6))] <- R[SR]`, with
the field layout SR at bits 11..9, BaseR at bits 8..6, off6 at 5..0. -/
def store_register (instruction : Nat) (s : State) : State :=
  let sign_extended_offset := sign_extend (instruction &&& 0x3F) 6
  let base_register := (instruction >>> 6) &&& 0x7
  let source_register := (instruction >>> 9) &&& 0x7
  let memory_address := (s.registers base_register + sign_extended_offset) % 65536
  { s with memory := rwrite s.memory memory_address (s.registers source_register) }

/-- Modelled from the spec: store_indirect (STI), whose body is absent
from src/operations.rs (only its caller in run_step and its tests
appear).  Spec 4.D: `mem[mem[wadd(PC, sext(off9,9))]] <- R[SR]`; the
memory accesses are plain, matching the sibling handlers. -/
def store_indirect (instruction : Nat) (s : State) : State :=
  let sign_extended_offset := sign_extend (instruction &&& 0x1FF) 9
  let source_register := (instruction >>> 9) &&& 0x7
  let memory_address := (s.registers Rpc + sign_extended_offset) % 65536
  let mem1 := rwrite s.memory (s.memory memory_address)
    (s.registers source_register)
  { s with memory := mem1 }

/-- Byte codes of the IN prompt string of spec 4.E. -/
def prompt_out : List Nat :=
  [69, 110, 116, 101, 114, 32, 99, 104, 97, 114, 97, 99, 116, 101, 114, 58, 32]

/-- Byte codes of the HALT message of spec 4.E. -/
def halt_out : List Nat := [72, 65, 76, 84]

/-- Modelled from the spec: the memory walk of the PUTS trap (spec 4.E),
emitting the low byte of each word until a zero word; the fuel argument
makes the possibly unending walk total, with `none` on exhaustion. -/
def puts_loop (mem : Nat → Nat) : Nat → Nat → List Nat → Option (List Nat)
  | 0, _, _ => none
  | fuel + 1, address, acc =>
    let w := mem (address % 65536)
    if w = 0 then some acc
    else puts_loop mem fuel (address + 1) (acc ++ [w % 256])

/-- Modelled from the spec: the memory walk of the PUTSP trap (spec 4.E),
emitting for each non-zero word its low byte and then, when non-zero,
its high byte, until a zero word. -/
def putsp_loop (mem : Nat → Nat) : Nat → Nat → List Nat → Option (List Nat)
  | 0, _, _ => none
  | fuel + 1, address, acc =>
    let w := mem (address % 65536)
    if w = 0 then some acc
    else
      let bytes := if w / 256 % 256 = 0 then [w % 256] else [w % 256, w / 256 % 256]
      putsp_loop mem fuel (address + 1) (acc ++ bytes)

/-- Modelled from the spec: the trap dispatcher of spec 4.E, whose body
is absent from src/operations.rs (only its caller in run_step appears).
GETC reads a byte into R0 and sets the flags; OUT emits the low byte of
R0; PUTS and PUTSP walk memory from R0; IN prompts, echoes and stores a
byte into R0 and sets the flags; HALT emits the HALT message and clears
the running flag.  Unknown vectors fail with BadTrapCode; a blocking
read with no pending input and an exhausted string walk are modelled as
the I/O failure `trapIo`. -/
def trap (instruction : Nat) (s : State) : Except RunError State :=
  let vect := instruction &&& 0xFF
  if vect = 0x20 then
    match s.keys with
    | [] => .error .trapIo
    | k :: rest =>
      let s1 := { s with keys := rest,
                         registers := rwrite s.registers 0 (k % 256) }
      .ok (update_flags 0 s1)
  else if vect = 0x21 then
    .ok { s with out := s.out ++ [s.registers 0 % 256] }
  else if vect = 0x22 then
    match puts_loop s.memory 65536 (s.registers 0) [] with
    | none => .error .trapIo
    | some cs => .ok { s with out := s.out ++ cs }
  else if vect = 0x23 then
    match s.keys with
    | [] => .error .trapIo
    | k :: rest =>
      let s1 := { s with keys := rest,
                         out := s.out ++ prompt_out ++ [k % 256],
                         registers := rwrite s.registers 0 (k % 256) }
      .ok (update_flags 0 s1)
  else if vect = 0x24 then
    match putsp_loop s.memory 65536 (s.registers 0) [] with
    | none => .error .trapIo
    | some cs => .ok { s with out := s.out ++ cs }
  else if vect = 0x25 then
    .ok { s with out := s.out ++ halt_out, running := false }
  else .error (.badTrapCode vect)

/-- run_step from src/main.rs: dispatch on `instruction >> 12`.  The RTI
and reserved arms terminate the process with an error; the dispatch is
exhaustive on four-bit opcodes, and the final arm (unreachable for a
sixteen-bit word) mirrors the BadOpCode error of `Operations::try_from`. -/
def run_step (instruction : Nat) (s : State) : Except RunError State :=
  let op_code := instruction >>> 12
  if op_code = 0 then .ok (conditional_branch instruction s)
  else if op_code = 1 then .ok (add instruction s)
  else if op_code = 2 then .ok (load instruction s)
  else if op_code = 3 then .ok (store instruction s)
  else if op_code = 4 then .ok (jump_to_subrutine instruction s)
  else if op_code = 5 then .ok (and instruction s)
  else if op_code = 6 then .ok (load_register instruction s)
  else if op_code = 7 then .ok (store_register instruction s)
  else if op_code = 8 then .error (.illegalOpcode 8)
  else if op_code = 9 then .ok (not instruction s)
  else if op_code = 10 then .ok (load_indirect instruction s)
  else if op_code = 11 then .ok (store_indirect instruction s)
  else if op_code = 12 then .ok (jump instruction s)
  else if op_code = 13 then .error (.illegalOpcode 13)
  else if op_code = 14 then .ok (load_effective_address instruction s)
  else if op_code = 15 then trap instruction s
  else .error (.badOpCode op_code)

/-- One iteration of the run loop of src/main.rs: fetch the instruction
at PC through State::memory_read, increment the PC (a checked addition
whose overflow panic surfaces as pcOverflow), then dispatch. -/
def run_once (s : State) : Except RunError State :=
  let fetched := memory_read (register_read Rpc s) s
  match increment_pc fetched.2 with
  | none => .error .pcOverflow
  | some s2 => run_step fetched.1 s2

/-- run_loop from src/main.rs, made total with a fuel argument: while the
running flag holds, perform run_once; with exhausted fuel the current
state is returned. -/
def run_loop : Nat → State → Except RunError State
  | 0, s => .ok s
  | fuel + 1, s =>
    if s.running then
      match run_once s with
      | .error e => .error e
      | .ok s1 => run_loop fuel s1
    else .ok s

/-- Guarded store for the image loader: `State::memory_write` called by
src/file_management.rs can reach an out-of-bounds array index, which in
Rust is a panic, modelled as the `oobWrite` error. -/
def memory_write_checked (address value : Nat) (s : State) :
    Except LoadError State :=
  if address < 65536 then .ok (memory_write address value s)
  else .error (.oobWrite address)

/-- The loop of read_file_to_memory from src/file_management.rs, recast
structurally on the byte list that remains from buffer_offset on: a
single remaining byte is written padded (`from_be_bytes [b, 0]`) before
any bounds check; otherwise the bounds check runs, then the emptiness
check, then a big-endian pair is written and the loop continues. -/
def load_loop (max_memory origin : Nat) :
    Nat → List Nat → State → Except LoadError State
  | memory_offset, [b], s =>
    memory_write_checked (origin + memory_offset) (b % 256 * 256) s
  | memory_offset, [], s =>
    if max_memory ≤ memory_offset then .error .badImageSize else .ok s
  | memory_offset, b1 :: b2 :: tail, s =>
    if max_memory ≤ memory_offset then .error .badImageSize
    else
      match memory_write_checked (origin + memory_offset)
          (b1 % 256 * 256 + b2 % 256) s with
      | .error e => .error e
      | .ok s1 => load_loop max_memory origin (memory_offset + 1) tail s1

/-- read_file_to_memory from src/file_management.rs over the byte list of
the opened file: the first two bytes form the big-endian origin,
max_memory is `memory.len() - origin`, and the remaining bytes are
written by load_loop.  A file shorter than two bytes makes the Rust code
panic on `buffer[0]` or `buffer[1]`, modelled as badFile. -/
def read_file_to_memory (buffer : List Nat) (s : State) :
    Except LoadError State :=
  match buffer with
  | b0 :: b1 :: rest =>
    let origin := b0 % 256 * 256 + b1 % 256
    load_loop (MEM_MAX - origin) origin 0 rest s
  | _ => .error .badFile

/-- The all-zero memory and register bank. -/
def zero_mem : Nat → Nat := fun _ => 0

/-- A machine state with zero memory and registers, mirroring the states
built directly in the tests of the repository (running, no pending keys). -/
def base_state : State :=
  { memory := zero_mem, registers := zero_mem, running := true, keys := [], out := [] }

/-- State::default from src/main.rs with a given loaded memory image and
pending input: all registers zero, then PC set to PC_START and the flag
register to Zro. -/
def loaded_state (mem : Nat → Nat) (keys : List Nat) : State :=
  { memory := mem
    registers := rwrite (rwrite zero_mem Rpc PC_START) Rcond 2
    running := true
    keys := keys
    out := [] }

/-- States reachable by the interpreter: a freshly initialized state with
any loaded sixteen-bit image and any pending input, or the successful
result of one fetch, increment and dispatch iteration of the run loop
from a reachable state. -/
inductive Reachable : State → Prop where
  | base (mem : Nat → Nat) (keys : List Nat) (hmem : ∀ a, mem a < 65536) :
      Reachable (loaded_state mem keys)
  | step {s s1 : State} : Reachable s → run_once s = .ok s1 → Reachable s1

/-- Well-formedness: every memory word and every register holds a
sixteen-bit value. -/
def WF (s : State) : Prop :=
  (∀ a, s.memory a < 65536) ∧ (∀ r, s.registers r < 65536)

/-- The condition register holds exactly one of Pos = 1, Zro = 2, Neg = 4. -/
def cond_one_hot (s : State) : Prop :=
  s.registers Rcond = 1 ∨ s.registers Rcond = 2 ∨ s.registers Rcond = 4

/-- The flag value the spec prescribes for a freshly written register
value: Zro = 2 for zero, Neg = 4 when bit 15 is set, Pos = 1 otherwise. -/
def flag_of (v : Nat) : Nat :=
  if v = 0 then 2 else if Nat.testBit v 15 then 4 else 1

/-- Memory image of the full-program seed scenario of spec section 8
(claim C2): the four data words and the thirteen instruction words. -/
def c2mem : Nat → Nat := fun a =>
  if a = 50 then 25689 else if a = 25689 then 25
  else if a = 56 then 777 else if a = 9 then 50
  else if a = 10 then 0xAA27 else if a = 11 then 0x27FD
  else if a = 12 then 0x12C5 else if a = 13 then 0x56E0
  else if a = 14 then 0x0405 else if a = 20 then 0x96FF
  else if a = 21 then 0xC140 else if a = 25 then 0x635F
  else if a = 26 then 0x4048 else if a = 777 then 0xB34C
  else if a = 778 then 0x3E03 else if a = 779 then 0x7A40
  else if a = 780 then 0xF025 else 0

/-- Starting state of the full-program scenario: the image above with
PC = 10, all other registers zero. -/
def c2state : State :=
  { memory := c2mem, registers := rwrite zero_mem Rpc 10,
    running := true, keys := [], out := [] }

/-- Memory of the LDI-chain scenario exactly as claim C7 states it:
mem[50] = 25689 and mem[25689] = 25. -/
def c7mem : Nat → Nat := fun a =>
  if a = 50 then 25689 else if a = 25689 then 25 else 0

/-- State of the LDI-chain scenario as claim C7 states it: PC = 5. -/
def c7state : State :=
  { memory := c7mem, registers := rwrite zero_mem Rpc 5,
    running := true, keys := [], out := [] }

/-- Memory of the amended LDI-chain scenario: the pointer word sits at
address 20, the effective address 5 + 15 that the code computes. -/
def c7mem_amended : Nat → Nat := fun a =>
  if a = 20 then 25689 else if a = 25689 then 25 else 0

/-- State of the amended LDI-chain scenario: PC = 5. -/
def c7state_amended : State :=
  { memory := c7mem_amended, registers := rwrite zero_mem Rpc 5,
    running := true, keys := [], out := [] }

/-- Memory for the keyboard-poll scenario of claim C3: address 0 holds a
pointer to the keyboard status register. -/
def c3mem : Nat → Nat := fun a => if a = 0 then Kbsr else 0

/-- State for the keyboard-poll scenario: a key (byte 65) is pending on
stdin, PC = 0, the stale Kbsr word in memory is 0. -/
def c3state : State :=
  { memory := c3mem, registers := zero_mem, running := true, keys := [65], out := [] }

/-- State with the program counter at 0xFFFF, the failing input of
claim C4. -/
def c4state : State :=
  { memory := zero_mem, registers := rwrite zero_mem Rpc 65535,
    running := true, keys := [], out := [] }

/-- State with R1 = 1, used to witness the ADD and AND mode agreement. -/
def c8state : State :=
  { memory := zero_mem, registers := rwrite zero_mem 1 1,
    running := true, keys := [], out := [] }

/-- C2: from the seed state (data words at 50, 25689, 56, 9; the thirteen
instruction words at 10..14, 20, 21, 25, 26, 777..780; PC = 10; running)
the run loop reaches the HALT trap, which clears the running flag, and
the final state has mem[0] = 777, mem[782] = 27, mem[777] = 25 and
R7 = 27.  Fuel 20 exceeds the thirteen executed instructions, so the
loop is observed exiting on the cleared running flag. -/
theorem C2_full_program :
    (run_loop 20 c2state).map
      (fun s => (s.running, s.memory 0, s.memory 782, s.memory 777, s.registers 7))
      = .ok (false, 777, 27, 25, 27) := rfl

/-- C3 (code divergence): the opcode handlers read memory through the raw
array, not through State::memory_read.  With a key pending and the LDI
chain 0xA000 dereferencing the keyboard status register, the handler
leaves the stale Kbsr word 0 in memory, consumes no key and loads 0 into
R0, while State::memory_read at the same address fires the poll, sets
Kbsr to 0x8000 and Kbdr to the key, and returns 0x8000. -/
theorem C3_handler_bypasses_memory_read :
    ((load_indirect 0xA000 c3state).memory Kbsr = 0 ∧
     (load_indirect 0xA000 c3state).keys = [65] ∧
     (load_indirect 0xA000 c3state).registers 0 = 0) ∧
    ((memory_read Kbsr c3state).1 = 0x8000 ∧
     (memory_read Kbsr c3state).2.memory Kbsr = 0x8000 ∧
     (memory_read Kbsr c3state).2.memory Kbdr = 65) := by decide

/-- C4 (code divergence): at PC = 0xFFFF the checked increment of
State::increment_pc overflows (a panic, modelled as none) instead of
wrapping; the wrapping increment that the spec prescribes yields PC = 0. -/
theorem C4_pc_increment_not_wrapping :
    increment_pc c4state = none ∧
    (increment_pc_wrapping c4state).registers Rpc = 0 :=
  ⟨rfl, rfl⟩

/-- C5 counterexample: the image 0xFFFE | AA BB CC DD has origin 65534
and an even payload of exactly 65536 - origin = 2 words, which claim C5
says loads successfully; the loader instead fails with BadImageSize,
because its bounds check runs before its termination check. -/
theorem C5_counterexample :
    read_file_to_memory [0xFF, 0xFE, 0xAA, 0xBB, 0xCC, 0xDD] base_state
      = .error .badImageSize := rfl

/-- C6: loading the seven bytes 30 00 12 34 56 78 9A places 0x1234 at
0x3000 and 0x5678 at 0x3001, and forms the final word 0x9A00 from the
odd trailing byte with a zero low byte. -/
theorem C6_loader_round_trip :
    (read_file_to_memory [0x30, 0x00, 0x12, 0x34, 0x56, 0x78, 0x9A] base_state).map
      (fun s => (s.memory 0x3000, s.memory 0x3001, s.memory 0x3002))
      = .ok (0x1234, 0x5678, 0x9A00) := rfl

/-- C7 counterexample: at PC = 5 the instruction 0xA40F reads through
address 5 + 15 = 20, not 50, so on the state claim C7 describes
(mem[50] = 25689, mem[25689] = 25) the destination register receives
mem[mem[20]] = mem[0] = 0 and the flags become Zro = 2, not the claimed
R2 = 25 with Pos. -/
theorem C7_counterexample :
    (load_indirect 0xA40F c7state).registers 2 = 0 ∧
    (load_indirect 0xA40F c7state).registers Rcond = 2 := by decide

/-- C7 amended: with the pointer word 25689 at the effective address 20
(and mem[25689] = 25, PC = 5), executing 0xA40F leaves R2 = 25 and the
flags Pos = 1. -/
theorem C7_ldi_chain_amended :
    (load_indirect 0xA40F c7state_amended).registers 2 = 25 ∧
    (load_indirect 0xA40F c7state_amended).registers Rcond = 1 := by decide

/-- C10: the final word of an odd-length payload is written before the
bounds check is consulted: the image 0xFFFF | AA BB CC (origin 65535,
odd payload of exactly 2 * (65536 - origin) + 1 = 3 bytes) drives the
loader to attempt the store of the padded word at index 65536, one past
the end of memory, instead of returning BadImageSize. -/
theorem C10_oob_write_reachable :
    read_file_to_memory [0xFF, 0xFF, 0xAA, 0xBB, 0xCC] base_state
      = .error (.oobWrite 65536) := rfl

/-- C8: in ADD and AND, the immediate encoding and the register encoding
agree on the destination value and on the resulting condition flags
whenever the sign-extended five-bit immediate of the first equals the
second source register value of the second. -/
theorem C8_imm_reg_agreement (i1 i2 : Nat) (s : State)
    (hdr : (i1 >>> 9) &&& 0x7 = (i2 >>> 9) &&& 0x7)
    (hsr : (i1 >>> 6) &&& 0x7 = (i2 >>> 6) &&& 0x7)
    (hm1 : (i1 >>> 5) &&& 0x1 = 1)
    (hm2 : (i2 >>> 5) &&& 0x1 = 0)
    (himm : sign_extend (i1 &&& 0x1F) 5 = s.registers (i2 &&& 0x7)) :
    (add i1 s).registers ((i1 >>> 9) &&& 0x7)
      = (add i2 s).registers ((i1 >>> 9) &&& 0x7) ∧
    (add i1 s).registers Rcond = (add i2 s).registers Rcond ∧
    (and i1 s).registers ((i1 >>> 9) &&& 0x7)
      = (and i2 s).registers ((i1 >>> 9) &&& 0x7) ∧
    (and i1 s).registers Rcond = (and i2 s).registers Rcond := by
  simp only [add, and, hm1, hm2, hdr, hsr, himm]
  norm_num

/-- Instantiation of the mode agreement at ADD/AND R7, R0 with the
immediate 1 against register R1 holding 1. -/
theorem C8_witness :
    (add 0x1E21 c8state).registers ((0x1E21 >>> 9) &&& 0x7)
      = (add 0x1E01 c8state).registers ((0x1E21 >>> 9) &&& 0x7) ∧
    (add 0x1E21 c8state).registers Rcond = (add 0x1E01 c8state).registers Rcond ∧
    (and 0x1E21 c8state).registers ((0x1E21 >>> 9) &&& 0x7)
      = (and 0x1E01 c8state).registers ((0x1E21 >>> 9) &&& 0x7) ∧
    (and 0x1E21 c8state).registers Rcond = (and 0x1E01 c8state).registers Rcond :=
  C8_imm_reg_agreement 0x1E21 0x1E01 c8state (by decide) (by decide) (by decide)
    (by decide) (by decide)

lemma rwrite_self (f : Nat → Nat) (i v : Nat) : rwrite f i v i = v := by
  simp [rwrite]

lemma rwrite_ne (f : Nat → Nat) {i j : Nat} (v : Nat) (h : j ≠ i) :
    rwrite f i v j = f j := by
  simp [rwrite, h]

lemma rwrite_lt {f : Nat → Nat} (hf : ∀ j, f j < 65536) {v : Nat}
    (hv : v < 65536) (i : Nat) : ∀ j, rwrite f i v j < 65536 := by
  intro j
  unfold rwrite
  split
  · exact hv
  · exact hf j

lemma and7_ne_rcond (x : Nat) : x &&& 0x7 ≠ Rcond := by
  have h : x &&& 0x7 ≤ 7 := Nat.and_le_right
  unfold Rcond
  omega

lemma update_flags_cond_one_hot (r : Nat) (s : State) :
    cond_one_hot (update_flags r s) := by
  unfold update_flags cond_one_hot
  split_ifs <;> simp [rwrite_self]

lemma update_flags_registers_ne (r : Nat) (s : State) {j : Nat} (hj : j ≠ Rcond) :
    (update_flags r s).registers j = s.registers j := by
  unfold update_flags
  split_ifs <;> simp [rwrite_ne _ _ hj]

lemma update_flags_wf (r : Nat) (s : State) (h : WF s) : WF (update_flags r s) := by
  obtain ⟨hm, hr⟩ := h
  unfold update_flags
  split_ifs <;> exact ⟨hm, rwrite_lt hr (by omega) _⟩

lemma update_flags_flag_of (r : Nat) (s : State) (hr : s.registers r < 65536) :
    (update_flags r s).registers Rcond = flag_of (s.registers r) := by
  have hdiv : s.registers r >>> 15 = s.registers r / 2 ^ 15 :=
    Nat.shiftRight_eq_div_pow _ _
  have h2 : s.registers r >>> 15 < 2 := by
    rw [hdiv]
    omega
  have htb : Nat.testBit (s.registers r) 15 = decide (s.registers r >>> 15 = 1) := by
    rw [Nat.testBit_to_div_mod, ← hdiv, Nat.mod_eq_of_lt h2]
  unfold update_flags flag_of
  rw [htb]
  simp only [decide_eq_true_eq]
  split_ifs <;> simp [rwrite_self]

lemma written_then_flags (dr v : Nat) (s : State) (hdr : dr ≠ Rcond)
    (hv : v < 65536) (h : WF s) :
    WF (update_flags dr { s with registers := rwrite s.registers dr v }) ∧
    cond_one_hot (update_flags dr { s with registers := rwrite s.registers dr v }) ∧
    (update_flags dr { s with registers := rwrite s.registers dr v }).registers Rcond
      = flag_of ((update_flags dr
          { s with registers := rwrite s.registers dr v }).registers dr) := by
  have hwf1 : WF ({ s with registers := rwrite s.registers dr v } : State) :=
    ⟨h.1, rwrite_lt h.2 hv dr⟩
  refine ⟨update_flags_wf _ _ hwf1, update_flags_cond_one_hot _ _, ?_⟩
  have hlt : ({ s with registers := rwrite s.registers dr v } : State).registers dr
      < 65536 := by
    show rwrite s.registers dr v dr < 65536
    rw [rwrite_self]
    exact hv
  rw [update_flags_flag_of _ _ hlt, update_flags_registers_ne _ _ hdr]

lemma add_props (i : Nat) (s : State) (h : WF s) :
    WF (add i s) ∧ cond_one_hot (add i s) ∧
    (add i s).registers Rcond = flag_of ((add i s).registers ((i >>> 9) &&& 0x7)) := by
  simp only [add]
  split_ifs <;>
    exact written_then_flags _ _ s (and7_ne_rcond _) (Nat.mod_lt _ (by omega)) h

lemma and_props (i : Nat) (s : State) (h : WF s) :
    WF (and i s) ∧ cond_one_hot (and i s) ∧
    (and i s).registers Rcond = flag_of ((and i s).registers ((i >>> 9) &&& 0x7)) := by
  simp only [and]
  split_ifs <;>
    exact written_then_flags _ _ s (and7_ne_rcond _)
      (Nat.lt_of_le_of_lt Nat.and_le_left (h.2 _)) h

lemma not_props (i : Nat) (s : State) (h : WF s) :
    WF (not i s) ∧ cond_one_hot (not i s) ∧
    (not i s).registers Rcond = flag_of ((not i s).registers ((i >>> 9) &&& 0x7)) := by
  simp only [not]
  exact written_then_flags _ _ s (and7_ne_rcond _) (by omega) h

lemma load_props (i : Nat) (s : State) (h : WF s) :
    WF (load i s) ∧ cond_one_hot (load i s) ∧
    (load i s).registers Rcond = flag_of ((load i s).registers ((i >>> 9) &&& 0x7)) := by
  simp only [load]
  exact written_then_flags _ _ s (and7_ne_rcond _) (h.1 _) h

lemma load_register_props (i : Nat) (s : State) (h : WF s) :
    WF (load_register i s) ∧ cond_one_hot (load_register i s) ∧
    (load_register i s).registers Rcond
      = flag_of ((load_register i s).registers ((i >>> 9) &&& 0x7)) := by
  simp only [load_register]
  exact written_then_flags _ _ s (and7_ne_rcond _) (h.1 _) h

lemma load_indirect_props (i : Nat) (s : State) (h : WF s) :
    WF (load_indirect i s) ∧ cond_one_hot (load_indirect i s) ∧
    (load_indirect i s).registers Rcond
      = flag_of ((load_indirect i s).registers ((i >>> 9) &&& 0x7)) := by
  simp only [load_indirect]
  exact written_then_flags _ _ s (and7_ne_rcond _) (h.1 _) h

lemma load_effective_address_props (i : Nat) (s : State) (h : WF s) :
    WF (load_effective_address i s) ∧ cond_one_hot (load_effective_address i s) ∧
    (load_effective_address i s).registers Rcond
      = flag_of ((load_effective_address i s).registers ((i >>> 9) &&& 0x7)) := by
  simp only [load_effective_address]
  exact written_then_flags _ _ s (and7_ne_rcond _) (Nat.mod_lt _ (by omega)) h

lemma store_props (i : Nat) (s : State) (h : WF s) :
    WF (store i s) ∧ (store i s).registers = s.registers := by
  refine ⟨⟨?_, h.2⟩, rfl⟩
  intro a
  simp only [store]
  exact rwrite_lt h.1 (h.2 _) _ a

lemma store_register_props (i : Nat) (s : State) (h : WF s) :
    WF (store_register i s) ∧ (store_register i s).registers = s.registers := by
  refine ⟨⟨?_, h.2⟩, rfl⟩
  intro a
  simp only [store_register]
  exact rwrite_lt h.1 (h.2 _) _ a

lemma store_indirect_props (i : Nat) (s : State) (h : WF s) :
    WF (store_indirect i s) ∧ (store_indirect i s).registers = s.registers := by
  refine ⟨⟨?_, h.2⟩, rfl⟩
  intro a
  simp only [store_indirect]
  exact rwrite_lt h.1 (h.2 _) _ a

lemma rcond_ne_rpc : Rcond ≠ Rpc := by decide

lemma conditional_branch_props (i : Nat) (s : State) (h : WF s) :
    WF (conditional_branch i s) ∧
    (conditional_branch i s).registers Rcond = s.registers Rcond := by
  simp only [conditional_branch]
  split_ifs
  · refine ⟨⟨h.1, rwrite_lt h.2 (Nat.mod_lt _ (by omega)) _⟩, ?_⟩
    simp [rwrite, Rcond, Rpc]
  · exact ⟨h, rfl⟩

lemma jump_props (i : Nat) (s : State) (h : WF s) :
    WF (jump i s) ∧ (jump i s).registers Rcond = s.registers Rcond := by
  simp only [jump]
  refine ⟨⟨h.1, rwrite_lt h.2 (h.2 _) _⟩, ?_⟩
  simp [rwrite, Rcond, Rpc]

lemma jump_to_subrutine_props (i : Nat) (s : State) (h : WF s) :
    WF (jump_to_subrutine i s) ∧
    (jump_to_subrutine i s).registers Rcond = s.registers Rcond := by
  simp only [jump_to_subrutine]
  have h7 : ∀ j, rwrite s.registers 7 (s.registers Rpc) j < 65536 :=
    rwrite_lt h.2 (h.2 _) _
  split_ifs
  · refine ⟨⟨h.1, rwrite_lt h7 (Nat.mod_lt _ (by omega)) _⟩, ?_⟩
    simp [rwrite, Rcond, Rpc]
  · refine ⟨⟨h.1, rwrite_lt h7 (h7 _) _⟩, ?_⟩
    simp [rwrite, Rcond, Rpc]

lemma memory_read_props (a : Nat) (s : State) (h : WF s) :
    WF (memory_read a s).2 ∧ (memory_read a s).2.registers = s.registers := by
  unfold memory_read
  split_ifs with hk
  · rcases hks : s.keys with _ | ⟨k, rest⟩ <;>
      simp only [check_key, hks, memory_write]
    · exact ⟨⟨rwrite_lt h.1 (by omega) _, h.2⟩, trivial⟩
    · exact ⟨⟨rwrite_lt (rwrite_lt h.1 (by omega) _) (by omega) _, h.2⟩, trivial⟩
  · exact ⟨h, rfl⟩

lemma increment_pc_props {s s2 : State} (h : WF s) (he : increment_pc s = some s2) :
    WF s2 ∧ s2.registers Rcond = s.registers Rcond := by
  unfold increment_pc at he
  split_ifs at he with hpc
  cases he
  constructor
  · exact ⟨h.1, rwrite_lt h.2 (by have := h.2 Rpc; omega) _⟩
  · simp [register_write, rwrite, Rcond, Rpc]

lemma trap_registers_of_ok {i : Nat} {s s1 : State}
    (h20 : i &&& 0xFF ≠ 0x20) (h23 : i &&& 0xFF ≠ 0x23)
    (he : trap i s = .ok s1) : s1.registers = s.registers := by
  simp only [trap] at he
  rw [if_neg h20] at he
  by_cases h21 : i &&& 0xFF = 0x21
  · rw [if_pos h21] at he
    cases he
    rfl
  · rw [if_neg h21] at he
    by_cases h22 : i &&& 0xFF = 0x22
    · rw [if_pos h22] at he
      rcases hp : puts_loop s.memory 65536 (s.registers 0) [] with _ | cs <;>
        rw [hp] at he
      · cases he
      · cases he
        rfl
    · rw [if_neg h22, if_neg h23] at he
      by_cases h24 : i &&& 0xFF = 0x24
      · rw [if_pos h24] at he
        rcases hp : putsp_loop s.memory 65536 (s.registers 0) [] with _ | cs <;>
          rw [hp] at he
        · cases he
        · cases he
          rfl
      · rw [if_neg h24] at he
        by_cases h25 : i &&& 0xFF = 0x25
        · rw [if_pos h25] at he
          cases he
          rfl
        · rw [if_neg h25] at he
          cases he

lemma trap_props {i : Nat} {s s1 : State} (h : WF s) (he : trap i s = .ok s1) :
    WF s1 ∧ (cond_one_hot s → cond_one_hot s1) := by
  by_cases h20 : i &&& 0xFF = 0x20
  · simp only [trap] at he
    rw [if_pos h20] at he
    rcases hks : s.keys with _ | ⟨k, rest⟩ <;> rw [hks] at he
    · cases he
    · cases he
      exact ⟨update_flags_wf _ _ ⟨h.1, rwrite_lt h.2 (by omega) _⟩,
        fun _ => update_flags_cond_one_hot _ _⟩
  · by_cases h23 : i &&& 0xFF = 0x23
    · simp only [trap] at he
      rw [if_neg h20] at he
      by_cases h21 : i &&& 0xFF = 0x21
      · exact absurd h21 (by rw [h23]; decide)
      rw [if_neg h21] at he
      by_cases h22 : i &&& 0xFF = 0x22
      · exact absurd h22 (by rw [h23]; decide)
      rw [if_neg h22, if_pos h23] at he
      rcases hks : s.keys with _ | ⟨k, rest⟩ <;> rw [hks] at he
      · cases he
      · cases he
        exact ⟨update_flags_wf _ _ ⟨h.1, rwrite_lt h.2 (by omega) _⟩,
          fun _ => update_flags_cond_one_hot _ _⟩
    · have hregs := trap_registers_of_ok h20 h23 he
      have hmem : s1.memory = s.memory := by
        simp only [trap] at he
        rw [if_neg h20] at he
        by_cases h21 : i &&& 0xFF = 0x21
        · rw [if_pos h21] at he
          cases he
          rfl
        · rw [if_neg h21] at he
          by_cases h22 : i &&& 0xFF = 0x22
          · rw [if_pos h22] at he
            rcases hp : puts_loop s.memory 65536 (s.registers 0) [] with _ | cs <;>
              rw [hp] at he
            · cases he
            · cases he
              rfl
          · rw [if_neg h22, if_neg h23] at he
            by_cases h24 : i &&& 0xFF = 0x24
            · rw [if_pos h24] at he
              rcases hp : putsp_loop s.memory 65536 (s.registers 0) [] with _ | cs <;>
                rw [hp] at he
              · cases he
              · cases he
                rfl
            · rw [if_neg h24] at he
              by_cases h25 : i &&& 0xFF = 0x25
              · rw [if_pos h25] at he
                cases he
                rfl
              · rw [if_neg h25] at he
                cases he
      refine ⟨⟨?_, ?_⟩, ?_⟩
      · rw [hmem]
        exact h.1
      · rw [hregs]
        exact h.2
      · intro hc
        unfold cond_one_hot
        rw [hregs]
        exact hc

lemma run_step_props {i : Nat} {s s1 : State} (hwf : WF s) (hc : cond_one_hot s)
    (he : run_step i s = .ok s1) : WF s1 ∧ cond_one_hot s1 := by
  simp only [run_step] at he
  by_cases e0 : i >>> 12 = 0
  · rw [if_pos e0] at he
    cases he
    obtain ⟨h1, h2⟩ := conditional_branch_props i s hwf
    refine ⟨h1, ?_⟩
    unfold cond_one_hot
    rw [h2]
    exact hc
  · rw [if_neg e0] at he
    by_cases e1 : i >>> 12 = 1
    · rw [if_pos e1] at he
      cases he
      exact ⟨(add_props i s hwf).1, (add_props i s hwf).2.1⟩
    · rw [if_neg e1] at he
      by_cases e2 : i >>> 12 = 2
      · rw [if_pos e2] at he
        cases he
        exact ⟨(load_props i s hwf).1, (load_props i s hwf).2.1⟩
      · rw [if_neg e2] at he
        by_cases e3 : i >>> 12 = 3
        · rw [if_pos e3] at he
          cases he
          obtain ⟨h1, h2⟩ := store_props i s hwf
          refine ⟨h1, ?_⟩
          unfold cond_one_hot
          rw [h2]
          exact hc
        · rw [if_neg e3] at he
          by_cases e4 : i >>> 12 = 4
          · rw [if_pos e4] at he
            cases he
            obtain ⟨h1, h2⟩ := jump_to_subrutine_props i s hwf
            refine ⟨h1, ?_⟩
            unfold cond_one_hot
            rw [h2]
            exact hc
          · rw [if_neg e4] at he
            by_cases e5 : i >>> 12 = 5
            · rw [if_pos e5] at he
              cases he
              exact ⟨(and_props i s hwf).1, (and_props i s hwf).2.1⟩
            · rw [if_neg e5] at he
              by_cases e6 : i >>> 12 = 6
              · rw [if_pos e6] at he
                cases he
                exact ⟨(load_register_props i s hwf).1, (load_register_props i s hwf).2.1⟩
              · rw [if_neg e6] at he
                by_cases e7 : i >>> 12 = 7
                · rw [if_pos e7] at he
                  cases he
                  obtain ⟨h1, h2⟩ := store_register_props i s hwf
                  refine ⟨h1, ?_⟩
                  unfold cond_one_hot
                  rw [h2]
                  exact hc
                · rw [if_neg e7] at he
                  by_cases e8 : i >>> 12 = 8
                  · rw [if_pos e8] at he
                    cases he
                  · rw [if_neg e8] at he
                    by_cases e9 : i >>> 12 = 9
                    · rw [if_pos e9] at he
                      cases he
                      exact ⟨(not_props i s hwf).1, (not_props i s hwf).2.1⟩
                    · rw [if_neg e9] at he
                      by_cases e10 : i >>> 12 = 10
                      · rw [if_pos e10] at he
                        cases he
                        exact ⟨(load_indirect_props i s hwf).1, (load_indirect_props i s hwf).2.1⟩
                      · rw [if_neg e10] at he
                        by_cases e11 : i >>> 12 = 11
                        · rw [if_pos e11] at he
                          cases he
                          obtain ⟨h1, h2⟩ := store_indirect_props i s hwf
                          refine ⟨h1, ?_⟩
                          unfold cond_one_hot
                          rw [h2]
                          exact hc
                        · rw [if_neg e11] at he
                          by_cases e12 : i >>> 12 = 12
                          · rw [if_pos e12] at he
                            cases he
                            obtain ⟨h1, h2⟩ := jump_props i s hwf
                            refine ⟨h1, ?_⟩
                            unfold cond_one_hot
                            rw [h2]
                            exact hc
                          · rw [if_neg e12] at he
                            by_cases e13 : i >>> 12 = 13
                            · rw [if_pos e13] at he
                              cases he
                            · rw [if_neg e13] at he
                              by_cases e14 : i >>> 12 = 14
                              · rw [if_pos e14] at he
                                cases he
                                exact ⟨(load_effective_address_props i s hwf).1, (load_effective_address_props i s hwf).2.1⟩
                              · rw [if_neg e14] at he
                                by_cases e15 : i >>> 12 = 15
                                · rw [if_pos e15] at he
                                  exact ⟨(trap_props hwf he).1, (trap_props hwf he).2 hc⟩
                                · rw [if_neg e15] at he
                                  cases he

lemma run_once_props {s s1 : State} (hwf : WF s) (hc : cond_one_hot s)
    (he : run_once s = .ok s1) : WF s1 ∧ cond_one_hot s1 := by
  simp only [run_once] at he
  obtain ⟨hwf2, hregs2⟩ := memory_read_props (register_read Rpc s) s hwf
  rcases hinc : increment_pc (memory_read (register_read Rpc s) s).2 with _ | s2 <;>
    rw [hinc] at he
  · cases he
  · obtain ⟨hwf3, hcond3⟩ := increment_pc_props hwf2 hinc
    refine run_step_props hwf3 ?_ he
    unfold cond_one_hot
    rw [hcond3, hregs2]
    exact hc

lemma reach_inv : ∀ s, Reachable s → WF s ∧ cond_one_hot s := by
  intro s h
  induction h with
  | base mem keys hmem =>
    refine ⟨⟨hmem, ?_⟩, ?_⟩
    · intro r
      simp only [loaded_state, rwrite, zero_mem, PC_START]
      split_ifs <;> omega
    · unfold cond_one_hot loaded_state
      simp [rwrite, Rcond]
  | step _ hstep ih =>
    exact run_once_props ih.1 ih.2 hstep

lemma zero_mem_lt : ∀ a, zero_mem a < 65536 := fun _ => by
  show (0 : Nat) < 65536
  omega

lemma c8state_wf : WF c8state :=
  ⟨zero_mem_lt, rwrite_lt zero_mem_lt (by decide) 1⟩

/-- C1: in every state reachable from an initialized state (flags Zro)
by run-loop iterations the condition register is exactly one of Pos = 1,
Zro = 2, Neg = 4; and immediately after each general-register writing
operation (ADD, AND, NOT, LD, LDR, LDI, LEA) on a well-formed state the
condition register equals the spec flag of the freshly written
destination value: Zro for zero, Neg when bit 15 is set, Pos otherwise. -/
theorem C1_cond_flag_discipline :
    (∀ s, Reachable s → cond_one_hot s) ∧
    (∀ i s, WF s →
      (add i s).registers Rcond
        = flag_of ((add i s).registers ((i >>> 9) &&& 0x7)) ∧
      (and i s).registers Rcond
        = flag_of ((and i s).registers ((i >>> 9) &&& 0x7)) ∧
      (not i s).registers Rcond
        = flag_of ((not i s).registers ((i >>> 9) &&& 0x7)) ∧
      (load i s).registers Rcond
        = flag_of ((load i s).registers ((i >>> 9) &&& 0x7)) ∧
      (load_register i s).registers Rcond
        = flag_of ((load_register i s).registers ((i >>> 9) &&& 0x7)) ∧
      (load_indirect i s).registers Rcond
        = flag_of ((load_indirect i s).registers ((i >>> 9) &&& 0x7)) ∧
      (load_effective_address i s).registers Rcond
        = flag_of ((load_effective_address i s).registers ((i >>> 9) &&& 0x7))) :=
  ⟨fun s h => (reach_inv s h).2,
   fun i s h =>
     ⟨(add_props i s h).2.2, (and_props i s h).2.2, (not_props i s h).2.2,
      (load_props i s h).2.2, (load_register_props i s h).2.2,
      (load_indirect_props i s h).2.2, (load_effective_address_props i s h).2.2⟩⟩

/-- Instantiation of the flag discipline at the freshly loaded empty
image and at ADD R7, R0, immediate 1 on a small concrete state. -/
theorem C1_witness :
    cond_one_hot (loaded_state zero_mem []) ∧
    (add 0x1E21 c8state).registers Rcond
      = flag_of ((add 0x1E21 c8state).registers ((0x1E21 >>> 9) &&& 0x7)) :=
  ⟨C1_cond_flag_discipline.1 _ (Reachable.base zero_mem [] zero_mem_lt),
   (C1_cond_flag_discipline.2 0x1E21 c8state c8state_wf).1⟩

/-- C9: the store, branch and jump handlers (ST, STR, STI, BR, JMP,
JSR/JSRR) leave the condition register unchanged, and a trap whose
vector is neither GETC = 0x20 nor IN = 0x23 (the two vectors that write
R0) also leaves it unchanged. -/
theorem C9_frame_cond (i : Nat) (s : State) :
    (store i s).registers Rcond = s.registers Rcond ∧
    (store_register i s).registers Rcond = s.registers Rcond ∧
    (store_indirect i s).registers Rcond = s.registers Rcond ∧
    (conditional_branch i s).registers Rcond = s.registers Rcond ∧
    (jump i s).registers Rcond = s.registers Rcond ∧
    (jump_to_subrutine i s).registers Rcond = s.registers Rcond ∧
    (∀ s1, i &&& 0xFF ≠ 0x20 → i &&& 0xFF ≠ 0x23 → trap i s = .ok s1 →
      s1.registers Rcond = s.registers Rcond) := by
  refine ⟨rfl, rfl, rfl, ?_, ?_, ?_, ?_⟩
  · simp only [conditional_branch]
    split_ifs
    · simp [rwrite, Rcond, Rpc]
    · rfl
  · simp [jump, rwrite, Rcond, Rpc]
  · simp only [jump_to_subrutine]
    split_ifs <;> simp [rwrite, Rcond, Rpc]
  · intro s1 h20 h23 he
    rw [congrFun (trap_registers_of_ok h20 h23 he) Rcond]

/-- Instantiation of the frame condition at the HALT trap 0xF025 from
the zeroed state: the halted state keeps the condition register. -/
theorem C9_witness :
    (State.mk base_state.memory base_state.registers false base_state.keys
        (base_state.out ++ halt_out)).registers Rcond
      = base_state.registers Rcond :=
  (C9_frame_cond 0xF025 base_state).2.2.2.2.2.2
    (State.mk base_state.memory base_state.registers false base_state.keys
      (base_state.out ++ halt_out))
    (by decide) (by decide) rfl

lemma load_loop_even (n : Nat) :
    ∀ (rest : List Nat) (maxm origin memOff : Nat) (s : State),
      rest.length = 2 * n → origin + maxm = 65536 →
      ((load_loop maxm origin memOff rest s = .error .badImageSize
          ↔ maxm ≤ memOff + n) ∧
       ((∃ s1, load_loop maxm origin memOff rest s = .ok s1)
          ↔ memOff + n < maxm)) := by
  induction n with
  | zero =>
    intro rest maxm origin memOff s hlen horig
    have hnil : rest = [] := List.eq_nil_of_length_eq_zero (by omega)
    subst hnil
    simp only [load_loop]
    by_cases hm : maxm ≤ memOff
    · rw [if_pos hm]
      constructor
      · exact ⟨fun _ => by omega, fun _ => rfl⟩
      · constructor
        · rintro ⟨s1, h⟩
          cases h
        · intro h
          omega
    · rw [if_neg hm]
      constructor
      · constructor
        · intro h
          cases h
        · intro h
          omega
      · exact ⟨fun _ => by omega, fun _ => ⟨s, rfl⟩⟩
  | succ n ih =>
    intro rest maxm origin memOff s hlen horig
    rcases rest with _ | ⟨b1, rest1⟩
    · simp at hlen
    rcases rest1 with _ | ⟨b2, tail⟩
    · simp at hlen
      omega
    have hlen2 : tail.length = 2 * n := by
      simp at hlen
      omega
    simp only [load_loop]
    by_cases hm : maxm ≤ memOff
    · rw [if_pos hm]
      constructor
      · exact ⟨fun _ => by omega, fun _ => rfl⟩
      · constructor
        · rintro ⟨s1, h⟩
          cases h
        · intro h
          omega
    · rw [if_neg hm]
      have hwr : memory_write_checked (origin + memOff) (b1 % 256 * 256 + b2 % 256) s
          = .ok (memory_write (origin + memOff) (b1 % 256 * 256 + b2 % 256) s) := by
        unfold memory_write_checked
        rw [if_pos (by omega)]
      rw [hwr]
      obtain ⟨ih1, ih2⟩ := ih tail maxm origin (memOff + 1)
        (memory_write (origin + memOff) (b1 % 256 * 256 + b2 % 256) s) hlen2 horig
      constructor
      · rw [ih1]
        omega
      · rw [ih2]
        omega

/-- C5 amended: for an image whose payload has even length, spanning n
16-bit words, the loader fails with BadImageSize exactly when
n is at least 65536 - origin, and returns Ok exactly when
n is strictly below 65536 - origin; in particular an even payload of
exactly 65536 - origin words is rejected, one word fewer is loaded. -/
theorem C5_even_payload_bound (n b0 b1 : Nat) (rest : List Nat) (s : State)
    (hlen : rest.length = 2 * n) :
    (read_file_to_memory (b0 :: b1 :: rest) s = .error .badImageSize
      ↔ 65536 - (b0 % 256 * 256 + b1 % 256) ≤ n) ∧
    ((∃ s1, read_file_to_memory (b0 :: b1 :: rest) s = .ok s1)
      ↔ n < 65536 - (b0 % 256 * 256 + b1 % 256)) := by
  have h0 : b0 % 256 < 256 := Nat.mod_lt _ (by omega)
  have h1 : b1 % 256 < 256 := Nat.mod_lt _ (by omega)
  have horig : (b0 % 256 * 256 + b1 % 256)
      + (65536 - (b0 % 256 * 256 + b1 % 256)) = 65536 := by
    omega
  simp only [read_file_to_memory, MEM_MAX]
  have h := load_loop_even n rest (65536 - (b0 % 256 * 256 + b1 % 256))
    (b0 % 256 * 256 + b1 % 256) 0 s hlen horig
  simpa using h

/-- Instantiation of the even-payload bound at origin 0xFFFE with a
two-byte (one-word) payload, which loads successfully. -/
theorem C5_witness :
    (read_file_to_memory [255, 254, 170, 187] base_state = .error .badImageSize
      ↔ 65536 - (255 % 256 * 256 + 254 % 256) ≤ 1) ∧
    ((∃ s1, read_file_to_memory [255, 254, 170, 187] base_state = .ok s1)
      ↔ 1 < 65536 - (255 % 256 * 256 + 254 % 256)) :=
  C5_even_payload_bound 1 255 254 [170, 187] base_state rfl
